import Mathlib

/-!
Verification development for `goggle_search_analysis.py`, a single-file
Streamlit dashboard over the pytrends client. The definitions below are a
shallow embedding of the script: pandas frames become explicit
column/row structures, the Streamlit render calls become an event trace,
and the pytrends network calls become an environment of outcomes plus a
call log.
-/

/-! ### Keyword parsing (line 76 of the source)
`keywords = [k.strip() for k in default_keywords.split(",") if k.strip()]` -/

/-- The whitespace characters removed by Python `str.strip()` (ASCII part). -/
def pyIsSpace (c : Char) : Bool :=
  c = ' ' || c = '\t' || c = '\n' || c = '\r' || c = '\x0b' || c = '\x0c'

/-- Python `str.strip()` on a character list: drop whitespace at both ends. -/
def pyStrip (l : List Char) : List Char :=
  ((l.dropWhile pyIsSpace).reverse.dropWhile pyIsSpace).reverse

/-- Python `s.split(",")`: split at every comma, keeping empty tokens. -/
def pySplit : List Char → List (List Char)
  | [] => [[]]
  | c :: cs =>
    if c = ',' then [] :: pySplit cs
    else
      match pySplit cs with
      | [] => [[c]]
      | t :: ts => (c :: t) :: ts

/-- Line 76: comma-split, strip each token, keep the nonempty ones in order. -/
def parseKeywords (s : String) : List String :=
  (((pySplit s.data).map pyStrip).filter (fun t => !t.isEmpty)).map List.asString

/-! ### Pandas frames -/

/-- A pandas DataFrame with a named index: index labels plus rectangular
string cells under named columns. -/
structure PDFrame where
  indexName : String
  index : List String
  cols : List String
  rows : List (List String)
deriving Repr, DecidableEq

/-- `df.empty`: true when either axis has length zero. -/
def PDFrame.empty (f : PDFrame) : Bool := f.rows.isEmpty || f.cols.isEmpty

/-- `pd.DataFrame()`: the fully empty frame. -/
def emptyFrame : PDFrame := ⟨"", [], [], []⟩

/-- `df.reset_index()`: the index becomes the leading column. -/
def PDFrame.resetIndex (f : PDFrame) : PDFrame :=
  ⟨"", [], f.indexName :: f.cols,
    (f.index.zip f.rows).map (fun p => p.1 :: p.2)⟩

/-- `df.drop(columns=[name])`: remove every column labelled `name`
together with its cells. -/
def PDFrame.dropColumn (f : PDFrame) (name : String) : PDFrame :=
  ⟨f.indexName, f.index, f.cols.filter (fun c => c ≠ name),
    f.rows.map (fun r => ((f.cols.zip r).filter (fun p => p.1 ≠ name)).map Prod.snd)⟩

/-- `df.head(n)`. -/
def PDFrame.head (f : PDFrame) (n : Nat) : PDFrame :=
  ⟨f.indexName, f.index.take n, f.cols, f.rows.take n⟩

/-- Lines 30-39: given the raw upstream interest-over-time frame, return the
empty frame when it is empty, otherwise reset the index and drop an
`isPartial` column when present. -/
def fetch_interest_over_time (raw : PDFrame) : PDFrame :=
  if raw.empty then emptyFrame
  else
    let df := raw.resetIndex
    if "isPartial" ∈ df.cols then df.dropColumn "isPartial" else df

/-! ### CSV serialization (lines 50-54)
`df.to_csv(buf, index=False)`: header row then data rows, fields quoted
minimally (when they contain a delimiter, quote, or line break), quotes
doubled inside quoted fields, each record terminated by a newline. -/

/-- A field must be quoted when it contains a comma, a quote, or a line break. -/
def needsQuote (f : List Char) : Bool :=
  f.any (fun c => c = ',' || c = '"' || c = '\n' || c = '\r')

/-- Double every quote character. -/
def escQ : List Char → List Char
  | [] => []
  | c :: cs => if c = '"' then '"' :: '"' :: escQ cs else c :: escQ cs

/-- Serialize one field with minimal quoting. -/
def writeField (f : List Char) : List Char :=
  if needsQuote f then '"' :: (escQ f ++ ['"']) else f

/-- Serialize one record: fields joined by commas. -/
def writeRecord : List (List Char) → List Char
  | [] => []
  | [f] => writeField f
  | f :: fs => writeField f ++ ',' :: writeRecord fs

/-- Serialize a table: one newline-terminated line per record. -/
def writeCsv (t : List (List (List Char))) : List Char :=
  (t.map (fun r => writeRecord r ++ ['\n'])).flatten

/-- Line 50-54, `df_to_csv_bytes`: serialize header and rows, no index. -/
def df_to_csv_bytes (f : PDFrame) : List Char :=
  writeCsv ((f.cols :: f.rows).map (fun r => r.map String.data))

/-! A reference CSV reader, used to state that the writer's output is valid
delimited text and round-trips. -/

/-- Read a quoted field body (the opening quote already consumed): stops at
the closing quote, reading a doubled quote as a literal quote. -/
def parseQuoted : List Char → Option (List Char × List Char)
  | [] => none
  | c :: rest =>
    if c = '"' then
      match rest with
      | '"' :: rest2 => (parseQuoted rest2).map (fun p => ('"' :: p.1, p.2))
      | _ => some ([], rest)
    else (parseQuoted rest).map (fun p => (c :: p.1, p.2))

/-- Characters that end an unquoted field: the delimiter or a newline. -/
def isFieldEnd (c : Char) : Bool := c = ',' || c = '\n'

/-- Read one field: a quoted field when the input starts with a quote,
otherwise everything up to the next comma or newline. -/
def parseField (l : List Char) : Option (List Char × List Char) :=
  if l.head? = some '"' then parseQuoted l.tail
  else some (l.takeWhile (fun c => !isFieldEnd c), l.dropWhile (fun c => !isFieldEnd c))

/-- Read one record (fuel-bounded): comma-separated fields terminated by a
newline; returns the fields and the input after the newline. -/
def parseRecordF : Nat → List Char → Option (List (List Char) × List Char)
  | 0, _ => none
  | fuel + 1, l =>
    match parseField l with
    | none => none
    | some (f, rest) =>
      match rest with
      | [] => none
      | c :: rest2 =>
        if c = ',' then (parseRecordF fuel rest2).map (fun p => (f :: p.1, p.2))
        else if c = '\n' then some ([f], rest2)
        else none

/-- Read one record, with enough fuel for any record of the input. -/
def parseRecord (l : List Char) : Option (List (List Char) × List Char) :=
  parseRecordF (l.length + 1) l

/-- Read a sequence of newline-terminated records (fuel-bounded). -/
def parseRecordsF : Nat → List Char → Option (List (List (List Char)))
  | fuel, l =>
    if l.isEmpty then some []
    else
      match fuel with
      | 0 => none
      | fuel + 1 =>
        match parseRecord l with
        | none => none
        | some (r, rest) => (parseRecordsF fuel rest).map (fun rs => r :: rs)

/-- Read a whole delimited-text document into records of fields. -/
def parseRecords (l : List Char) : Option (List (List (List Char))) :=
  parseRecordsF l.length l

/-- Read a delimited-text document into rows of string fields. -/
def csvParse (l : List Char) : Option (List (List String)) :=
  (parseRecords l).map (fun rs => rs.map (fun r => r.map List.asString))

/-! ### Region results (lines 41-44, 107-133) -/

/-- The regional-interest frame: a region name per row (the index) and one
integer interest value per keyword column. -/
structure RegionFrame where
  indexName : String
  cols : List String
  rows : List (String × List Int)
deriving Repr, DecidableEq

/-- `df.empty` for a region frame. -/
def RegionFrame.empty (f : RegionFrame) : Bool := f.rows.isEmpty || f.cols.isEmpty

/-- The sort key of a row: its value in the column labelled `kw0`. -/
def rowKey (f : RegionFrame) (kw0 : String) (r : String × List Int) : Int :=
  r.2.getD (List.indexOf kw0 f.cols) 0

/-- Line 115: `iregion.sort_values(by=keywords[0], ascending=False).head(20)`. -/
def topRegions (kw0 : String) (f : RegionFrame) : List (String × List Int) :=
  (f.rows.mergeSort (fun a b => decide (rowKey f kw0 b ≤ rowKey f kw0 a))).take 20

/-! ### Related-query results (lines 46-48, 135-159) -/

/-- One keyword's entry in the related-queries mapping: optional "top" and
"rising" sub-tables. -/
structure RelEntry where
  top : Option PDFrame
  rising : Option PDFrame
deriving Repr, DecidableEq

/-! ### The presentation controller (lines 75-164)
Streamlit render calls become an event trace; pytrends calls become an
environment of outcomes plus a call log. -/

/-- One Streamlit render call, in emission order. -/
inductive Event where
  | error (msg : String)
  | warning (msg : String)
  | info (msg : String)
  | success (msg : String)
  | subheader (txt : String)
  | write (txt : String)
  | markdown (txt : String)
  | dataframeTS (f : PDFrame)
  | pyplotChart (kws : List String)
  | dataframeRegion (cols : List String) (rows : List (String × List Int))
  | plotlyChoropleth (colToPlot : String)
  | dataframeRel (f : PDFrame)
  | download (label fileName : String) (data : List Char)
deriving Repr, DecidableEq

/-- One pytrends invocation, in call order. -/
inductive Call where
  | initClient
  | fetchTimeSeries (kw : List String) (timeframe geo : String) (cat : Nat)
  | fetchRegion (kw : List String) (timeframe geo resolution : String) (cat : Nat)
  | fetchRelated (kw : List String) (timeframe geo : String) (cat : Nat)
deriving Repr, DecidableEq

/-- Outcomes of the external calls for one run: each fetch either raises
(an exception message) or returns its upstream value; `choroplethFails`
says whether the plotly choropleth call raises. -/
structure Env where
  initResult : Except String Unit
  iotRaw : Except String PDFrame
  regionResult : Except String (Option RegionFrame)
  relatedResult : Except String (List (String × Option RelEntry))
  choroplethFails : Bool

/-- `str(KeyError(k))` as Python renders it. -/
def pyKeyError (k : String) : String := "'" ++ k ++ "'"

/-- Lines 84-105, the time-series stage. Returns the emitted events and,
when a lookup of a missing `date` column would raise, the exception
(uncaught here: only the run-level handler is around this stage). -/
def tsStage (keywords : List String) (iot : PDFrame) : List Event × Option String :=
  if iot.empty then
    ([.warning "No data returned for the chosen parameters. Try a different timeframe or keywords."],
     none)
  else
    let pre : List Event :=
      [.subheader "Interest over time", .write "Interactive table:", .dataframeTS iot]
    if keywords.any (fun k => decide (k ∈ iot.cols)) && !(decide ("date" ∈ iot.cols)) then
      (pre, some (pyKeyError "date"))
    else
      (pre ++ [.pyplotChart (keywords.filter (fun k => decide (k ∈ iot.cols))),
               .download "Download interest_over_time CSV" "interest_over_time.csv"
                 (df_to_csv_bytes iot)],
       none)

/-- Lines 107-133, the region stage, guarded by its own try/except. -/
def regionStage (kw0 resolution : String) (res : Except String (Option RegionFrame))
    (choroFails : Bool) : List Event :=
  Event.subheader "Interest by region" ::
  match res with
  | .error e => [.error ("Error fetching region data: " ++ e)]
  | .ok none => [.warning "No region data available."]
  | .ok (some f) =>
    if f.empty then [.warning "No region data available."]
    else if decide (kw0 ∈ f.cols) then
      let dispCols := f.indexName :: f.cols
      Event.dataframeRegion dispCols (topRegions kw0 f) ::
      (if resolution = "COUNTRY" && decide ("geoName" ∈ dispCols) then
        (if choroFails then [.info "Could not render world map — showing table instead."]
         else [.plotlyChoropleth (if decide (kw0 ∈ dispCols) then kw0 else dispCols.getLastD "")])
       else [])
    else [.error ("Error fetching region data: " ++ pyKeyError kw0)]

/-- Lines 140-157: the body of the per-keyword related-queries loop, given
the keyword's entry in the mapping (`none` = key absent). -/
def relEntryEvents (kw : String) (entry : Option (Option RelEntry)) : List Event :=
  Event.markdown ("*" ++ kw ++ "*") ::
  match entry with
  | some (some r) =>
    (match r.top with
     | some t =>
       if t.empty then []
       else [Event.write "Top related queries", Event.dataframeRel (t.head 10),
             Event.download ("Download " ++ kw ++ " top related CSV")
               (kw ++ "related_top.csv") (df_to_csv_bytes t.resetIndex)]
     | none => []) ++
    (match r.rising with
     | some t =>
       if t.empty then []
       else [Event.write "Rising related queries", Event.dataframeRel (t.head 10),
             Event.download ("Download " ++ kw ++ " rising related CSV")
               (kw ++ "related_rising.csv") (df_to_csv_bytes t.resetIndex)]
     | none => [])
  | _ => [Event.write "No related queries returned."]

/-- Lines 135-159, the related-queries stage, guarded by its own try/except. -/
def relatedStage (keywords : List String)
    (res : Except String (List (String × Option RelEntry))) : List Event :=
  Event.subheader "Related queries" ::
  match res with
  | .error e => [.error ("Error fetching related queries: " ++ e)]
  | .ok related => (keywords.map (fun kw => relEntryEvents kw (related.lookup kw))).flatten

/-- Lines 162-164, the run-level exception handler. -/
def catchAll (ex : String) : List Event :=
  [.error ("An error occurred: " ++ ex),
   .write "Tip: make sure you have internet access and pytrends installed."]

/-- Line 80, the info banner. -/
def infoMsg (keywords : List String) (timeframe geo : String) : String :=
  "Fetching Trends data for: " ++ String.intercalate ", " keywords ++
  " — timeframe: " ++ timeframe ++ " — geo: " ++ (if geo = "" then "WORLDWIDE" else geo)

/-- Lines 75-164, the `run_btn` handler: parse keywords, validate, then run
the three stages inside the run-level try/except. Returns the event trace
and the pytrends call log. -/
def runAnalysis (defaultKeywords timeframe geo resolution : String) (cat : Nat) (env : Env) :
    List Event × List Call :=
  let keywords := parseKeywords defaultKeywords
  if keywords.isEmpty then
    ([.error "Please enter at least one keyword."], [])
  else
    let infoEv := Event.info (infoMsg keywords timeframe geo)
    match env.initResult with
    | .error ex => (infoEv :: catchAll ex, [.initClient])
    | .ok _ =>
      match env.iotRaw with
      | .error ex =>
        (infoEv :: catchAll ex, [.initClient, .fetchTimeSeries keywords timeframe geo cat])
      | .ok raw =>
        let iot := fetch_interest_over_time raw
        match tsStage keywords iot with
        | (evs, some ex) =>
          (infoEv :: (evs ++ catchAll ex),
           [.initClient, .fetchTimeSeries keywords timeframe geo cat])
        | (evs, none) =>
          (infoEv :: (evs
             ++ regionStage (keywords.headD "") resolution env.regionResult env.choroplethFails
             ++ relatedStage keywords env.relatedResult
             ++ [.success "Analysis complete."]),
           [.initClient, .fetchTimeSeries keywords timeframe geo cat,
            .fetchRegion keywords timeframe geo resolution cat,
            .fetchRelated keywords timeframe geo cat])

/-! ### Helper lemmas -/

/-- With zero parsed keywords, the handler emits only the validation error
and performs no call. -/
theorem runAnalysis_of_no_keywords (s tf geo res : String) (cat : Nat) (env : Env)
    (h : parseKeywords s = []) :
    runAnalysis s tf geo res cat env = ([.error "Please enter at least one keyword."], []) := by
  unfold runAnalysis
  simp [h]

/-- A default environment used to instantiate universally quantified claims. -/
def envOkEmpty : Env :=
  { initResult := .ok (), iotRaw := .ok emptyFrame, regionResult := .ok none,
    relatedResult := .ok [], choroplethFails := false }

/-- `pySplit` never returns an empty token list. -/
theorem pySplit_ne_nil : ∀ l : List Char, pySplit l ≠ [] := by
  intro l
  induction l with
  | nil => simp [pySplit]
  | cons c cs ih =>
    rw [pySplit]
    split
    · simp
    · split
      · simp
      · simp

/-- Every character of every comma-split token occurs in the input and is
not a comma. -/
theorem pySplit_chars : ∀ (l : List Char) (t : List Char), t ∈ pySplit l →
    ∀ c ∈ t, c ∈ l ∧ ¬(c = ',') := by
  intro l
  induction l with
  | nil =>
    intro t ht c hc
    simp [pySplit] at ht
    subst ht
    simp at hc
  | cons c0 cs ih =>
    intro t ht c hc
    rw [pySplit] at ht
    split at ht
    next hc0 =>
      simp at ht
      rcases ht with ht | ht
      · subst ht; simp at hc
      · have := ih t ht c hc
        exact ⟨by simp [this.1], this.2⟩
    next hc0 =>
      split at ht
      next hnil => exact absurd hnil (pySplit_ne_nil cs)
      next t0 ts hsplit =>
        simp at ht
        rcases ht with ht | ht
        · subst ht
          simp at hc
          rcases hc with hc | hc
          · subst hc; exact ⟨by simp, hc0⟩
          · have ht0 : t0 ∈ pySplit cs := by rw [hsplit]; simp
            have := ih t0 ht0 c hc
            exact ⟨by simp [this.1], this.2⟩
        · have htm : t ∈ pySplit cs := by rw [hsplit]; simp [ht]
          have := ih t htm c hc
          exact ⟨by simp [this.1], this.2⟩

/-- Stripping a token of pure whitespace yields the empty token. -/
theorem pyStrip_eq_nil_of_space (t : List Char) (h : ∀ c ∈ t, pyIsSpace c = true) :
    pyStrip t = [] := by
  unfold pyStrip
  have h1 : t.dropWhile pyIsSpace = [] := List.dropWhile_eq_nil_iff.mpr h
  rw [h1]
  simp

/-- A spec-side single-pass comma tokenizer: accumulate the current token
(reversed) and emit it at each comma and at the end. -/
def specCommaTokens : List Char → List Char → List (List Char)
  | [], cur => [cur.reverse]
  | c :: cs, cur =>
    if c = ',' then cur.reverse :: specCommaTokens cs []
    else specCommaTokens cs (c :: cur)

/-- The keyword list as the claim words it: the comma-separated tokens,
whitespace-stripped, empty tokens discarded, in their original order. -/
def specParseKeywords (s : String) : List String :=
  (((specCommaTokens s.data []).map pyStrip).filter (fun t => !t.isEmpty)).map List.asString

theorem specCommaTokens_eq_pySplit_aux :
    ∀ (l : List Char) (cur : List Char) (t : List Char) (ts : List (List Char)),
      pySplit l = t :: ts → specCommaTokens l cur = (cur.reverse ++ t) :: ts := by
  intro l
  induction l with
  | nil =>
    intro cur t ts h
    simp [pySplit] at h
    simp [specCommaTokens, h.1.symm, h.2.symm]
  | cons c cs ih =>
    intro cur t ts h
    rw [pySplit] at h
    rw [specCommaTokens]
    split at h
    next hc =>
      simp at h
      obtain ⟨ht, hts⟩ := h
      subst ht
      rw [if_pos hc]
      obtain ⟨t', ts', hsplit⟩ : ∃ t' ts', pySplit cs = t' :: ts' := by
        cases hs : pySplit cs with
        | nil => exact absurd hs (pySplit_ne_nil cs)
        | cons a b => exact ⟨a, b, rfl⟩
      rw [ih [] t' ts' hsplit]
      simp
      rw [← hts, hsplit]
    next hc =>
      rw [if_neg hc]
      split at h
      next hnil => exact absurd hnil (pySplit_ne_nil cs)
      next t0 ts0 hsplit =>
        simp at h
        rw [ih (c :: cur) t0 ts0 hsplit]
        simp [← h.1, h.2]

/-- The code's tokenization agrees with the spec-side tokenization. -/
theorem specCommaTokens_eq_pySplit (l : List Char) :
    specCommaTokens l [] = pySplit l := by
  obtain ⟨t, ts, h⟩ : ∃ t ts, pySplit l = t :: ts := by
    cases hs : pySplit l with
    | nil => exact absurd hs (pySplit_ne_nil l)
    | cons a b => exact ⟨a, b, rfl⟩
  rw [specCommaTokens_eq_pySplit_aux l [] t ts h, h]
  simp

/-! ### Claim C4: zero keywords means a validation error and no fetch -/

/-- C4: when the parsed keyword list is empty, the controller reports the
validation error and performs no external call at all: the client handle is
not initialized and none of the three fetch operations is invoked (the call
log is empty). -/
theorem c4_zero_keywords_no_fetch (s tf geo res : String) (cat : Nat) (env : Env)
    (h : parseKeywords s = []) :
    runAnalysis s tf geo res cat env = ([.error "Please enter at least one keyword."], []) :=
  runAnalysis_of_no_keywords s tf geo res cat env h

/-- Witness for C4 at the concrete input " ,  , ". -/
theorem c4_zero_keywords_no_fetch_witness :
    runAnalysis " ,  , " "today 12-m" "" "COUNTRY" 0 envOkEmpty =
      ([.error "Please enter at least one keyword."], []) :=
  c4_zero_keywords_no_fetch " ,  , " "today 12-m" "" "COUNTRY" 0 envOkEmpty (by rfl)

/-! ### Claim C10: keyword parsing -/

/-- C10: the parsed keyword list is exactly the comma-separated tokens with
surrounding whitespace stripped and empty tokens discarded, in their
original order (stated as agreement with the independently written
single-pass tokenizer `specParseKeywords`); consequently an input of only
commas and whitespace yields zero keywords and triggers the validation
error. -/
theorem c10_keyword_parsing (s : String) (tf geo res : String) (cat : Nat) (env : Env)
    (hcw : ∀ c ∈ s.data, c = ',' ∨ pyIsSpace c = true) :
    (∀ u : String, parseKeywords u = specParseKeywords u) ∧
    parseKeywords s = [] ∧
    runAnalysis s tf geo res cat env = ([.error "Please enter at least one keyword."], []) := by
  have heq : ∀ u : String, parseKeywords u = specParseKeywords u := by
    intro u
    unfold parseKeywords specParseKeywords
    rw [specCommaTokens_eq_pySplit]
  have hnil : parseKeywords s = [] := by
    unfold parseKeywords
    have hmap : ∀ t ∈ (pySplit s.data).map pyStrip, (!t.isEmpty) = false := by
      intro t ht
      simp only [List.mem_map] at ht
      obtain ⟨t0, ht0, hstrip⟩ := ht
      have hsp : ∀ c ∈ t0, pyIsSpace c = true := by
        intro c hc
        have h1 := pySplit_chars s.data t0 ht0 c hc
        rcases hcw c h1.1 with hcomma | hspace
        · exact absurd hcomma h1.2
        · exact hspace
      rw [← hstrip, pyStrip_eq_nil_of_space t0 hsp]
      simp
    have : ((pySplit s.data).map pyStrip).filter (fun t => !t.isEmpty) = [] := by
      rw [List.filter_eq_nil_iff]
      intro a ha
      show ¬(!a.isEmpty) = true
      rw [hmap a ha]
      simp
    rw [this]
    simp
  exact ⟨heq, hnil, runAnalysis_of_no_keywords s tf geo res cat env hnil⟩

/-- Witness for C10 at the concrete input ", ,  ". -/
theorem c10_keyword_parsing_witness :
    (∀ u : String, parseKeywords u = specParseKeywords u) ∧
    parseKeywords ", ,  " = [] ∧
    runAnalysis ", ,  " "today 3-m" "US" "CITY" 3 envOkEmpty =
      ([.error "Please enter at least one keyword."], []) :=
  c10_keyword_parsing ", ,  " "today 3-m" "US" "CITY" 3 envOkEmpty (by decide)

/-! ### Claim C9: keyword with no related-query data -/

/-- Environment where the one keyword maps to an entry with no usable
sub-tables ("top" and "rising" both absent). -/
def envC9 : Env :=
  { initResult := .ok (), iotRaw := .ok emptyFrame, regionResult := .ok none,
    relatedResult := .ok [("python", some ⟨none, none⟩)], choroplethFails := false }

/-- Counterexample to C9 as stated: when a keyword maps to an entry with no
usable sub-tables, the run raises no error but also displays no
"No related queries returned." message for that keyword — the else branch
of line 142 is not reached. -/
theorem c9_counterexample :
    runAnalysis "python" "today 12-m" "" "COUNTRY" 0 envC9 =
      ([.info "Fetching Trends data for: python — timeframe: today 12-m — geo: WORLDWIDE",
        .warning "No data returned for the chosen parameters. Try a different timeframe or keywords.",
        .subheader "Interest by region", .warning "No region data available.",
        .subheader "Related queries", .markdown "*python*",
        .success "Analysis complete."],
       [.initClient, .fetchTimeSeries ["python"] "today 12-m" "" 0,
        .fetchRegion ["python"] "today 12-m" "" "COUNTRY" 0,
        .fetchRelated ["python"] "today 12-m" "" 0]) ∧
    Event.write "No related queries returned."
      ∉ (runAnalysis "python" "today 12-m" "" "COUNTRY" 0 envC9).1 :=
  ⟨by decide, by decide⟩

/-- C9 as amended: the "No related queries returned." note is displayed
exactly when the keyword is absent from the mapping or maps to `None`;
a keyword that maps to an entry whose "top" and "rising" sub-tables are
missing or empty renders nothing beyond its header, and in no case is an
error raised for the keyword. -/
theorem c9_amended (kw : String) (entry : Option (Option RelEntry)) :
    (entry = none ∨ entry = some none →
      relEntryEvents kw entry =
        [.markdown ("*" ++ kw ++ "*"), .write "No related queries returned."]) ∧
    (∀ r, entry = some (some r) →
      (r.top = none ∨ ∃ t, r.top = some t ∧ t.empty = true) →
      (r.rising = none ∨ ∃ t, r.rising = some t ∧ t.empty = true) →
      relEntryEvents kw entry = [.markdown ("*" ++ kw ++ "*")]) ∧
    (∀ m, Event.error m ∉ relEntryEvents kw entry) := by
  refine ⟨?_, ?_, ?_⟩
  · rintro (h | h) <;> subst h <;> rfl
  · rintro ⟨top, rising⟩ he htop hrise
    subst he
    unfold relEntryEvents
    rcases htop with h | ⟨t, ht, hte⟩ <;> rcases hrise with h2 | ⟨t2, ht2, hte2⟩ <;>
      simp_all
  · intro m
    rcases entry with _ | entry2
    · simp [relEntryEvents]
    · rcases entry2 with _ | ⟨top, rising⟩
      · simp [relEntryEvents]
      · unfold relEntryEvents
        rcases top with _ | t <;> rcases rising with _ | t2 <;> simp

/-! ### Claim C1: stage independence under failures -/

/-- Environment where the time-series fetch raises. -/
def envC1 : Env :=
  { initResult := .ok (), iotRaw := .error "boom", regionResult := .ok none,
    relatedResult := .ok [], choroplethFails := false }

/-- Counterexample to C1 as stated: an exception raised during the
time-series stage is caught only by the run-level handler (line 162), so
the region and related-query stages are not executed at all — neither
their fetches nor their rendering happen. -/
theorem c1_counterexample :
    runAnalysis "python" "today 12-m" "" "COUNTRY" 0 envC1 =
      ([.info "Fetching Trends data for: python — timeframe: today 12-m — geo: WORLDWIDE",
        .error "An error occurred: boom",
        .write "Tip: make sure you have internet access and pytrends installed."],
       [.initClient, .fetchTimeSeries ["python"] "today 12-m" "" 0]) ∧
    Event.subheader "Interest by region"
      ∉ (runAnalysis "python" "today 12-m" "" "COUNTRY" 0 envC1).1 ∧
    Event.subheader "Related queries"
      ∉ (runAnalysis "python" "today 12-m" "" "COUNTRY" 0 envC1).1 ∧
    Call.fetchRegion ["python"] "today 12-m" "" "COUNTRY" 0
      ∉ (runAnalysis "python" "today 12-m" "" "COUNTRY" 0 envC1).2 ∧
    Call.fetchRelated ["python"] "today 12-m" "" 0
      ∉ (runAnalysis "python" "today 12-m" "" "COUNTRY" 0 envC1).2 :=
  ⟨by decide, by decide, by decide, by decide, by decide⟩

/-- C1 as amended: failures in the region stage and in the related-query
stage are each reported inline and do not abort the other stages — both
remaining fetches are still invoked and the run still completes — but an
exception raised during the time-series stage is caught by the run-level
handler and aborts the region and related-query stages. -/
theorem c1_amended (s tf geo res : String) (cat : Nat) (env : Env) :
    (∀ raw evs, parseKeywords s ≠ [] → env.initResult = .ok () → env.iotRaw = .ok raw →
      tsStage (parseKeywords s) (fetch_interest_over_time raw) = (evs, none) →
      (runAnalysis s tf geo res cat env).2 =
        [.initClient, .fetchTimeSeries (parseKeywords s) tf geo cat,
         .fetchRegion (parseKeywords s) tf geo res cat,
         .fetchRelated (parseKeywords s) tf geo cat] ∧
      (runAnalysis s tf geo res cat env).1 =
        .info (infoMsg (parseKeywords s) tf geo) :: (evs
          ++ regionStage ((parseKeywords s).headD "") res env.regionResult env.choroplethFails
          ++ relatedStage (parseKeywords s) env.relatedResult
          ++ [.success "Analysis complete."]) ∧
      (∀ e, env.regionResult = .error e →
        Event.error ("Error fetching region data: " ++ e) ∈ (runAnalysis s tf geo res cat env).1) ∧
      (∀ e, env.relatedResult = .error e →
        Event.error ("Error fetching related queries: " ++ e) ∈ (runAnalysis s tf geo res cat env).1) ∧
      Event.success "Analysis complete." ∈ (runAnalysis s tf geo res cat env).1) ∧
    (∀ ex, parseKeywords s ≠ [] → env.initResult = .ok () → env.iotRaw = .error ex →
      runAnalysis s tf geo res cat env =
        (.info (infoMsg (parseKeywords s) tf geo) :: catchAll ex,
         [.initClient, .fetchTimeSeries (parseKeywords s) tf geo cat])) := by
  constructor
  · intro raw evs hk hi hr hts
    have hke : (parseKeywords s).isEmpty = false := by
      cases hp : parseKeywords s with
      | nil => exact absurd hp hk
      | cons a b => simp
    unfold runAnalysis
    rw [hi, hr]
    simp only [hke, Bool.false_eq_true, if_false, hts]
    refine ⟨by trivial, by trivial, ?_, ?_, ?_⟩
    · intro e he
      rw [he]
      simp [regionStage]
    · intro e he
      rw [he]
      simp [relatedStage]
    · simp
  · intro ex hk hi hr
    have hke : (parseKeywords s).isEmpty = false := by
      cases hp : parseKeywords s with
      | nil => exact absurd hp hk
      | cons a b => simp
    unfold runAnalysis
    rw [hi, hr]
    simp [hke]

/-- Witness for C9's amended theorem at concrete entries. -/
theorem c9_amended_witness :
    relEntryEvents "python" (some (some ⟨none, none⟩)) = [.markdown "*python*"] ∧
    relEntryEvents "java" none = [.markdown "*java*", .write "No related queries returned."] ∧
    (∀ m, Event.error m ∉ relEntryEvents "python" (some (some ⟨none, none⟩))) :=
  ⟨(c9_amended "python" (some (some ⟨none, none⟩))).2.1 ⟨none, none⟩ rfl (Or.inl rfl) (Or.inl rfl),
   (c9_amended "java" none).1 (Or.inl rfl),
   (c9_amended "python" (some (some ⟨none, none⟩))).2.2⟩

/-- A small nonempty upstream time-series frame. -/
def rawW : PDFrame := ⟨"date", ["d1"], ["python"], [["55"]]⟩

/-- Environment where only the region fetch fails. -/
def envC1W : Env :=
  { initResult := .ok (), iotRaw := .ok rawW, regionResult := .error "net down",
    relatedResult := .ok [], choroplethFails := false }

/-- Witness for C1's amended theorem: with a failing region fetch, all
three fetches are still invoked, the region error is inline, and the run
completes. -/
theorem c1_amended_witness :
    (runAnalysis "python" "today 12-m" "" "COUNTRY" 0 envC1W).2 =
      [.initClient, .fetchTimeSeries ["python"] "today 12-m" "" 0,
       .fetchRegion ["python"] "today 12-m" "" "COUNTRY" 0,
       .fetchRelated ["python"] "today 12-m" "" 0] ∧
    Event.error "Error fetching region data: net down"
      ∈ (runAnalysis "python" "today 12-m" "" "COUNTRY" 0 envC1W).1 ∧
    Event.success "Analysis complete."
      ∈ (runAnalysis "python" "today 12-m" "" "COUNTRY" 0 envC1W).1 := by
  have h := (c1_amended "python" "today 12-m" "" "COUNTRY" 0 envC1W).1 rawW
    [.subheader "Interest over time", .write "Interactive table:",
     .dataframeTS ⟨"", [], ["date", "python"], [["d1", "55"]]⟩,
     .pyplotChart ["python"],
     .download "Download interest_over_time CSV" "interest_over_time.csv"
       ("date,python\nd1,55\n".data)]
    (by decide) rfl rfl (by decide)
  exact ⟨h.1, h.2.2.1 "net down" rfl, h.2.2.2.2⟩

/-! ### Claim C7: empty time-series result -/

/-- The region stage never renders a time-series table. -/
theorem regionStage_no_dataframeTS (kw0 res : String) (r : Except String (Option RegionFrame))
    (ch : Bool) (f' : PDFrame) : Event.dataframeTS f' ∉ regionStage kw0 res r ch := by
  unfold regionStage
  rcases r with err | o
  · simp
  · rcases o with _ | f
    · simp
    · simp only [List.mem_cons]
      rintro (h | h)
      · exact absurd h (by simp)
      · split_ifs at h <;> simp at h <;> split_ifs at h <;> simp at h

/-- The region stage never renders a line chart. -/
theorem regionStage_no_pyplot (kw0 res : String) (r : Except String (Option RegionFrame))
    (ch : Bool) (ks : List String) : Event.pyplotChart ks ∉ regionStage kw0 res r ch := by
  unfold regionStage
  rcases r with err | o
  · simp
  · rcases o with _ | f
    · simp
    · simp only [List.mem_cons]
      rintro (h | h)
      · exact absurd h (by simp)
      · split_ifs at h <;> simp at h <;> split_ifs at h <;> simp at h

/-- A keyword's related-queries block never renders a time-series table. -/
theorem relEntryEvents_no_dataframeTS (kw : String) (entry : Option (Option RelEntry))
    (f' : PDFrame) : Event.dataframeTS f' ∉ relEntryEvents kw entry := by
  unfold relEntryEvents
  rcases entry with _ | (_ | ⟨top, rising⟩)
  · simp
  · simp
  · simp only [List.mem_cons]
    rintro (h | h)
    · exact absurd h (by simp)
    · rcases top with _ | t <;> rcases rising with _ | t2 <;> simp at h <;>
        split_ifs at h <;> simp at h

/-- A keyword's related-queries block never renders a line chart. -/
theorem relEntryEvents_no_pyplot (kw : String) (entry : Option (Option RelEntry))
    (ks : List String) : Event.pyplotChart ks ∉ relEntryEvents kw entry := by
  unfold relEntryEvents
  rcases entry with _ | (_ | ⟨top, rising⟩)
  · simp
  · simp
  · simp only [List.mem_cons]
    rintro (h | h)
    · exact absurd h (by simp)
    · rcases top with _ | t <;> rcases rising with _ | t2 <;> simp at h <;>
        split_ifs at h <;> simp at h

/-- The related stage never renders a time-series table. -/
theorem relatedStage_no_dataframeTS (kws : List String)
    (r : Except String (List (String × Option RelEntry))) (f' : PDFrame) :
    Event.dataframeTS f' ∉ relatedStage kws r := by
  unfold relatedStage
  rcases r with err | related
  · simp
  · simp only [List.mem_cons]
    rintro (h | h)
    · exact absurd h (by simp)
    · simp only [List.mem_flatten, List.mem_map] at h
      obtain ⟨_, ⟨kw, _, hform⟩, hmem⟩ := h
      exact relEntryEvents_no_dataframeTS kw _ f' (hform ▸ hmem)

/-- The related stage never renders a line chart. -/
theorem relatedStage_no_pyplot (kws : List String)
    (r : Except String (List (String × Option RelEntry))) (ks : List String) :
    Event.pyplotChart ks ∉ relatedStage kws r := by
  unfold relatedStage
  rcases r with err | related
  · simp
  · simp only [List.mem_cons]
    rintro (h | h)
    · exact absurd h (by simp)
    · simp only [List.mem_flatten, List.mem_map] at h
      obtain ⟨_, ⟨kw, _, hform⟩, hmem⟩ := h
      exact relEntryEvents_no_pyplot kw _ ks (hform ▸ hmem)

/-- The normal-flow decomposition of a run: with keywords present, a
successful init and time-series fetch, and a time-series stage that does
not raise, the run is the four stage traces in order and all four external
calls in order. -/
theorem runAnalysis_decomp (s tf geo res : String) (cat : Nat) (env : Env) (raw : PDFrame)
    (evs : List Event) (hk : parseKeywords s ≠ []) (hi : env.initResult = .ok ())
    (hr : env.iotRaw = .ok raw)
    (hts : tsStage (parseKeywords s) (fetch_interest_over_time raw) = (evs, none)) :
    runAnalysis s tf geo res cat env =
      (.info (infoMsg (parseKeywords s) tf geo) :: (evs
         ++ regionStage ((parseKeywords s).headD "") res env.regionResult env.choroplethFails
         ++ relatedStage (parseKeywords s) env.relatedResult
         ++ [.success "Analysis complete."]),
       [.initClient, .fetchTimeSeries (parseKeywords s) tf geo cat,
        .fetchRegion (parseKeywords s) tf geo res cat,
        .fetchRelated (parseKeywords s) tf geo cat]) := by
  have hke : (parseKeywords s).isEmpty = false := by
    cases hp : parseKeywords s with
    | nil => exact absurd hp hk
    | cons a b => simp
  unfold runAnalysis
  rw [hi, hr]
  simp only [hke, Bool.false_eq_true, if_false, hts]

/-- C7: when the time-series fetch returns an empty table, the stage shows
exactly the warning — no table render, no chart, no download offer for the
stage — and the run goes on to the region and related stages; moreover no
time-series table or line chart is rendered anywhere in the run. -/
theorem c7_empty_timeseries (s tf geo res : String) (cat : Nat) (env : Env) (raw : PDFrame)
    (hk : parseKeywords s ≠ []) (hi : env.initResult = .ok ())
    (hr : env.iotRaw = .ok raw) (he : (fetch_interest_over_time raw).empty = true) :
    tsStage (parseKeywords s) (fetch_interest_over_time raw) =
      ([.warning "No data returned for the chosen parameters. Try a different timeframe or keywords."],
       none) ∧
    (runAnalysis s tf geo res cat env).1 =
      .info (infoMsg (parseKeywords s) tf geo)
        :: .warning "No data returned for the chosen parameters. Try a different timeframe or keywords."
        :: (regionStage ((parseKeywords s).headD "") res env.regionResult env.choroplethFails
            ++ relatedStage (parseKeywords s) env.relatedResult
            ++ [.success "Analysis complete."]) ∧
    (∀ f', Event.dataframeTS f' ∉ (runAnalysis s tf geo res cat env).1) ∧
    (∀ ks, Event.pyplotChart ks ∉ (runAnalysis s tf geo res cat env).1) := by
  have hts : tsStage (parseKeywords s) (fetch_interest_over_time raw) =
      ([.warning "No data returned for the chosen parameters. Try a different timeframe or keywords."],
       none) := by
    unfold tsStage
    rw [he]
    simp
  have hrun := runAnalysis_decomp s tf geo res cat env raw _ hk hi hr hts
  have h1 : (runAnalysis s tf geo res cat env).1 =
      .info (infoMsg (parseKeywords s) tf geo)
        :: .warning "No data returned for the chosen parameters. Try a different timeframe or keywords."
        :: (regionStage ((parseKeywords s).headD "") res env.regionResult env.choroplethFails
            ++ relatedStage (parseKeywords s) env.relatedResult
            ++ [.success "Analysis complete."]) := by
    rw [hrun]
    simp
  refine ⟨hts, h1, ?_, ?_⟩
  · intro f' hmem
    rw [h1] at hmem
    simp only [List.mem_cons, List.mem_append, List.mem_singleton] at hmem
    rcases hmem with h | h | (h | h) | h
    · exact absurd h (by simp)
    · exact absurd h (by simp)
    · exact regionStage_no_dataframeTS _ _ _ _ _ h
    · exact relatedStage_no_dataframeTS _ _ _ h
    · exact absurd h (by simp)
  · intro ks hmem
    rw [h1] at hmem
    simp only [List.mem_cons, List.mem_append, List.mem_singleton] at hmem
    rcases hmem with h | h | (h | h) | h
    · exact absurd h (by simp)
    · exact absurd h (by simp)
    · exact regionStage_no_pyplot _ _ _ _ _ h
    · exact relatedStage_no_pyplot _ _ _ h
    · exact absurd h (by simp)

/-- Witness for C7 at a concrete empty upstream frame. -/
theorem c7_empty_timeseries_witness :
    tsStage (parseKeywords "java") (fetch_interest_over_time emptyFrame) =
      ([.warning "No data returned for the chosen parameters. Try a different timeframe or keywords."],
       none) ∧
    (runAnalysis "java" "today 12-m" "" "COUNTRY" 0 envOkEmpty).1 =
      .info (infoMsg (parseKeywords "java") "today 12-m" "")
        :: .warning "No data returned for the chosen parameters. Try a different timeframe or keywords."
        :: (regionStage ((parseKeywords "java").headD "") "COUNTRY" envOkEmpty.regionResult
              envOkEmpty.choroplethFails
            ++ relatedStage (parseKeywords "java") envOkEmpty.relatedResult
            ++ [.success "Analysis complete."]) ∧
    (∀ f', Event.dataframeTS f' ∉ (runAnalysis "java" "today 12-m" "" "COUNTRY" 0 envOkEmpty).1) ∧
    (∀ ks, Event.pyplotChart ks ∉ (runAnalysis "java" "today 12-m" "" "COUNTRY" 0 envOkEmpty).1) :=
  c7_empty_timeseries "java" "today 12-m" "" "COUNTRY" 0 envOkEmpty emptyFrame
    (by decide) rfl rfl (by decide)
/-! ### Claim C8: choropleth branch -/

/-- The shape of a successful region stage: table first, then the
choropleth attempt exactly under the documented condition. -/
theorem regionStage_ok_shape (kw0 res : String) (f : RegionFrame) (ch : Bool)
    (hne : f.empty = false) (hkw : kw0 ∈ f.cols) :
    regionStage kw0 res (.ok (some f)) ch =
      Event.subheader "Interest by region" ::
      Event.dataframeRegion (f.indexName :: f.cols) (topRegions kw0 f) ::
      (if res = "COUNTRY" ∧ "geoName" ∈ f.indexName :: f.cols then
        (if ch then [Event.info "Could not render world map — showing table instead."]
         else [Event.plotlyChoropleth kw0])
       else []) := by
  have hkwd : kw0 ∈ f.indexName :: f.cols := List.mem_cons_of_mem _ hkw
  unfold regionStage
  simp only [hne, Bool.false_eq_true, if_false, hkw, decide_eq_true_eq, if_pos, if_true]
  by_cases hcond : res = "COUNTRY" ∧ "geoName" ∈ f.indexName :: f.cols
  · have hb : (decide (res = "COUNTRY") && decide ("geoName" ∈ f.indexName :: f.cols)) = true := by
      simp [hcond.1, hcond.2]
    rw [if_pos hcond]
    simp [hb, hkwd, hkw]
    intro himp
    rcases hcond with ⟨h1, h2⟩
    rcases List.mem_cons.mp h2 with h3 | h3
    · exact absurd h3 (himp h1).1
    · exact absurd h3 (himp h1).2
  · have hb : (decide (res = "COUNTRY") && decide ("geoName" ∈ f.indexName :: f.cols)) = false := by
      rcases not_and_or.mp hcond with h | h <;> simp [h]
    rw [if_neg hcond]
    simp [hb, hkw]
    intro h1 h2
    exact absurd ⟨h1, List.mem_cons.mpr h2⟩ hcond

/-- C8: in a successful region stage (nonempty frame, ranking column
present), a world-choropleth render is attempted if and only if the
resolution is COUNTRY and a `geoName` column is present in the displayed
table; when attempted and successful it is colored by the first keyword's
column; when the render fails the stage falls back to the table-only view
with no error surfaced. -/
theorem c8_choropleth (kw0 res : String) (f : RegionFrame) (ch : Bool)
    (hne : f.empty = false) (hkw : kw0 ∈ f.cols) :
    (ch = false →
      ((∃ c, Event.plotlyChoropleth c ∈ regionStage kw0 res (.ok (some f)) ch) ↔
        (res = "COUNTRY" ∧ "geoName" ∈ f.indexName :: f.cols)) ∧
      (∀ c, Event.plotlyChoropleth c ∈ regionStage kw0 res (.ok (some f)) ch → c = kw0)) ∧
    (ch = true →
      (∀ c, Event.plotlyChoropleth c ∉ regionStage kw0 res (.ok (some f)) ch) ∧
      ((Event.info "Could not render world map — showing table instead."
          ∈ regionStage kw0 res (.ok (some f)) ch) ↔
        (res = "COUNTRY" ∧ "geoName" ∈ f.indexName :: f.cols)) ∧
      (∀ m, Event.error m ∉ regionStage kw0 res (.ok (some f)) ch)) ∧
    Event.dataframeRegion (f.indexName :: f.cols) (topRegions kw0 f)
      ∈ regionStage kw0 res (.ok (some f)) ch := by
  rw [regionStage_ok_shape kw0 res f ch hne hkw]
  by_cases hcond : res = "COUNTRY" ∧ "geoName" ∈ f.indexName :: f.cols
  · refine ⟨?_, ?_, ?_⟩
    · rintro rfl
      simp [hcond]
    · rintro rfl
      simp [hcond]
    · simp
  · refine ⟨?_, ?_, ?_⟩
    · rintro rfl
      simp [hcond]
    · rintro rfl
      simp [hcond]
    · simp

/-- A small concrete region frame. -/
def regW : RegionFrame := ⟨"geoName", ["python"], [("India", [80]), ("United States", [90])]⟩

/-- Witness for C8 at the concrete frame, for both the successful and the
failing render. -/
theorem c8_choropleth_witness :
    (∃ c, Event.plotlyChoropleth c ∈ regionStage "python" "COUNTRY" (.ok (some regW)) false) ∧
    (∀ c, Event.plotlyChoropleth c ∈ regionStage "python" "COUNTRY" (.ok (some regW)) false →
      c = "python") ∧
    (∀ m, Event.error m ∉ regionStage "python" "COUNTRY" (.ok (some regW)) true) := by
  have h0 := c8_choropleth "python" "COUNTRY" regW false (by decide) (by decide)
  have h1 := c8_choropleth "python" "COUNTRY" regW true (by decide) (by decide)
  exact ⟨((h0.1 rfl).1).mpr ⟨rfl, by decide⟩, (h0.1 rfl).2, (h1.2.1 rfl).2.2⟩

/-! ### Claim C3: top-20 region ranking -/

/-- C3: the displayed region rows are exactly the first `min 20 n` rows of
a permutation of the input sorted by the first keyword\'s value in
descending order — so for inputs with more than 20 rows they are the
maximal 20: every shown row\'s key is at least every omitted row\'s key;
when the input has at most 20 rows all of them are shown (reordered); and
the shown rows themselves are sorted descending. -/
theorem c3_top_regions (kw0 : String) (f : RegionFrame) (hne : f.empty = false) :
    (∃ l, f.rows.Perm l ∧
      List.Pairwise (fun a b => rowKey f kw0 b ≤ rowKey f kw0 a) l ∧
      topRegions kw0 f = l.take 20 ∧
      (∀ a ∈ l.take 20, ∀ b ∈ l.drop 20, rowKey f kw0 b ≤ rowKey f kw0 a)) ∧
    (topRegions kw0 f).length = min 20 f.rows.length ∧
    (f.rows.length ≤ 20 → (topRegions kw0 f).Perm f.rows) ∧
    List.Pairwise (fun a b => rowKey f kw0 b ≤ rowKey f kw0 a) (topRegions kw0 f) := by
  have htrans : ∀ a b c : String × List Int,
      (fun a b => decide (rowKey f kw0 b ≤ rowKey f kw0 a)) a b →
      (fun a b => decide (rowKey f kw0 b ≤ rowKey f kw0 a)) b c →
      (fun a b => decide (rowKey f kw0 b ≤ rowKey f kw0 a)) a c := by
    intro a b c hab hbc
    simp only [decide_eq_true_eq] at hab hbc ⊢
    exact le_trans hbc hab
  have htotal : ∀ a b : String × List Int,
      ((fun a b => decide (rowKey f kw0 b ≤ rowKey f kw0 a)) a b ||
       (fun a b => decide (rowKey f kw0 b ≤ rowKey f kw0 a)) b a) := by
    intro a b
    simp only [Bool.or_eq_true, decide_eq_true_eq]
    exact (le_total (rowKey f kw0 b) (rowKey f kw0 a))
  have hs := List.sorted_mergeSort htrans htotal f.rows
  have hs2 : List.Pairwise (fun a b => rowKey f kw0 b ≤ rowKey f kw0 a)
      (f.rows.mergeSort (fun a b => decide (rowKey f kw0 b ≤ rowKey f kw0 a))) := by
    refine hs.imp ?_
    intro a b hab
    simpa using hab
  have hdom : ∀ a ∈ (f.rows.mergeSort
        (fun a b => decide (rowKey f kw0 b ≤ rowKey f kw0 a))).take 20,
      ∀ b ∈ (f.rows.mergeSort
        (fun a b => decide (rowKey f kw0 b ≤ rowKey f kw0 a))).drop 20,
      rowKey f kw0 b ≤ rowKey f kw0 a := by
    have hsplit := hs2
    rw [← List.take_append_drop 20
      (f.rows.mergeSort (fun a b => decide (rowKey f kw0 b ≤ rowKey f kw0 a)))] at hsplit
    exact fun a ha b hb => (List.pairwise_append.mp hsplit).2.2 a ha b hb
  refine ⟨⟨f.rows.mergeSort (fun a b => decide (rowKey f kw0 b ≤ rowKey f kw0 a)),
      (List.mergeSort_perm f.rows _).symm, hs2, rfl, hdom⟩, ?_, ?_, ?_⟩
  · simp [topRegions]
  · intro hlen
    unfold topRegions
    rw [List.take_of_length_le (by simp [hlen])]
    exact List.mergeSort_perm f.rows _
  · exact hs2.sublist (List.take_sublist _ _)

/-- A region frame with 22 rows, to exercise the top-20 truncation. -/
def regBig : RegionFrame :=
  ⟨"geoName", ["python"],
   [("r1", [1]), ("r2", [2]), ("r3", [3]), ("r4", [4]), ("r5", [5]), ("r6", [6]),
    ("r7", [7]), ("r8", [8]), ("r9", [9]), ("r10", [10]), ("r11", [11]), ("r12", [12]),
    ("r13", [13]), ("r14", [14]), ("r15", [15]), ("r16", [16]), ("r17", [17]),
    ("r18", [18]), ("r19", [19]), ("r20", [20]), ("r21", [21]), ("r22", [22])]⟩

/-- Witness for C3 at a 22-row frame: the theorem instantiates, and the
shown rows evaluate concretely to the 20 rows of largest value, in
descending order (rows r2 and r1 are omitted). -/
theorem c3_top_regions_witness :
    ((∃ l, regBig.rows.Perm l ∧
      List.Pairwise (fun a b => rowKey regBig "python" b ≤ rowKey regBig "python" a) l ∧
      topRegions "python" regBig = l.take 20 ∧
      (∀ a ∈ l.take 20, ∀ b ∈ l.drop 20,
        rowKey regBig "python" b ≤ rowKey regBig "python" a)) ∧
    (topRegions "python" regBig).length = min 20 regBig.rows.length ∧
    (regBig.rows.length ≤ 20 → (topRegions "python" regBig).Perm regBig.rows) ∧
    List.Pairwise (fun a b => rowKey regBig "python" b ≤ rowKey regBig "python" a)
      (topRegions "python" regBig)) ∧
    topRegions "python" regBig =
      [("r22", [22]), ("r21", [21]), ("r20", [20]), ("r19", [19]), ("r18", [18]),
       ("r17", [17]), ("r16", [16]), ("r15", [15]), ("r14", [14]), ("r13", [13]),
       ("r12", [12]), ("r11", [11]), ("r10", [10]), ("r9", [9]), ("r8", [8]),
       ("r7", [7]), ("r6", [6]), ("r5", [5]), ("r4", [4]), ("r3", [3])] :=
  ⟨c3_top_regions "python" regBig (by decide),
   by simp +decide [topRegions, regBig, rowKey, List.mergeSort]⟩

/-! ### Claim C5: the time-series fetch transformation -/

/-- Dropping the cells under a single occurrence of a column label is
erasure at that column's position. -/
theorem filter_zip_eraseIdx (c : String) :
    ∀ (A B r : List String), c ∉ A → c ∉ B → r.length = (A ++ c :: B).length →
      (((A ++ c :: B).zip r).filter (fun p => p.1 ≠ c)).map Prod.snd =
        r.eraseIdx A.length := by
  intro A
  induction A with
  | nil =>
    intro B r hA hB hlen
    match r with
    | [] => simp at hlen
    | x :: r' =>
      simp only [List.nil_append, List.length_cons, List.length_append] at hlen
      simp only [List.nil_append, List.zip_cons_cons]
      rw [List.filter_cons_of_neg (by simp)]
      have hfil : (List.zip B r').filter (fun p => (decide ¬(p.1 = c))) = List.zip B r' := by
        rw [List.filter_eq_self]
        intro p hp
        have hpB : p.1 ∈ B := by
          rcases p with ⟨u, v⟩
          exact (List.of_mem_zip hp).1
        simp
        intro hc
        exact hB (hc ▸ hpB)
      have hlen2 : r'.length ≤ B.length := by
        simp at hlen
        omega
      calc ((List.zip B r').filter (fun p => (decide ¬(p.1 = c)))).map Prod.snd
          = (List.zip B r').map Prod.snd := by rw [hfil]
        _ = r' := List.map_snd_zip B r' hlen2
        _ = (x :: r').eraseIdx 0 := by simp
  | cons a A' ih =>
    intro B r hA hB hlen
    match r with
    | [] => simp at hlen
    | x :: r' =>
      have ha : ¬(a = c) := by
        intro h
        exact hA (by simp [h])
      have hA' : c ∉ A' := fun h => hA (by simp [h])
      simp only [List.cons_append, List.zip_cons_cons]
      rw [List.filter_cons_of_pos (by simp [ha])]
      simp only [List.map_cons]
      have hlen' : r'.length = (A' ++ c :: B).length := by
        simp at hlen ⊢
        omega
      rw [ih B r' hA' hB hlen']
      simp [List.eraseIdx_cons_succ]

/-- C5: `fetch_interest_over_time` returns the empty frame on empty
upstream data (not an error); otherwise it turns the date index into a
leading column and, when an `isPartial` column is present, removes exactly
that column and its cells, leaving every other column and every row
unchanged. -/
theorem c5_fetch_interest_over_time :
    (∀ raw, raw.empty = true → fetch_interest_over_time raw = emptyFrame) ∧
    (∀ raw, raw.empty = false → raw.indexName = "date" → "isPartial" ∉ raw.cols →
      fetch_interest_over_time raw = raw.resetIndex ∧
      (fetch_interest_over_time raw).cols = "date" :: raw.cols ∧
      (fetch_interest_over_time raw).rows =
        (raw.index.zip raw.rows).map (fun p => p.1 :: p.2)) ∧
    (∀ raw A B, raw.empty = false → raw.indexName = "date" →
      raw.cols = A ++ "isPartial" :: B → "isPartial" ∉ A → "isPartial" ∉ B →
      (∀ r ∈ raw.rows, r.length = raw.cols.length) →
      (fetch_interest_over_time raw).cols = "date" :: (A ++ B) ∧
      (fetch_interest_over_time raw).rows =
        (raw.index.zip raw.rows).map (fun p => p.1 :: p.2.eraseIdx A.length)) := by
  refine ⟨?_, ?_, ?_⟩
  · intro raw h
    unfold fetch_interest_over_time
    rw [if_pos h]
  · intro raw h hidx hnp
    have hmem : ¬("isPartial" ∈ raw.resetIndex.cols) := by
      unfold PDFrame.resetIndex
      simp [hidx]
      exact fun hc => absurd hc hnp
    have heq : fetch_interest_over_time raw = raw.resetIndex := by
      unfold fetch_interest_over_time
      rw [if_neg (by simp [h])]
      simp only [hmem, if_false]
    refine ⟨heq, ?_, ?_⟩
    · rw [heq]
      unfold PDFrame.resetIndex
      simp [hidx]
    · rw [heq]
      rfl
  · intro raw A B h hidx hcols hA hB hrect
    have hmem : "isPartial" ∈ raw.resetIndex.cols := by
      unfold PDFrame.resetIndex
      simp [hcols]
    have heq : fetch_interest_over_time raw =
        raw.resetIndex.dropColumn "isPartial" := by
      unfold fetch_interest_over_time
      rw [if_neg (by simp [h])]
      simp only [hmem, if_true]
    constructor
    · rw [heq]
      unfold PDFrame.dropColumn PDFrame.resetIndex
      rw [List.filter_cons_of_pos (by simp [hidx]), hcols, List.filter_append,
        List.filter_cons_of_neg (by simp)]
      have hfA : A.filter (fun c => c ≠ "isPartial") = A :=
        List.filter_eq_self.mpr (fun a ha => by
          simp
          exact fun hc => hA (hc ▸ ha))
      have hfB : B.filter (fun c => c ≠ "isPartial") = B :=
        List.filter_eq_self.mpr (fun b hb => by
          simp
          exact fun hc => hB (hc ▸ hb))
      rw [hfA, hfB, hidx]
    · rw [heq]
      unfold PDFrame.dropColumn PDFrame.resetIndex
      simp only [List.map_map]
      refine List.map_congr_left ?_
      rintro ⟨x, r⟩ hp
      have hr : r ∈ raw.rows := (List.of_mem_zip hp).2
      have hrl : r.length = raw.cols.length := hrect r hr
      simp only [Function.comp]
      rw [List.zip_cons_cons, List.filter_cons_of_pos (by simp [hidx])]
      simp only [List.map_cons]
      congr 1
      rw [hcols] at hrl
      rw [hcols]
      exact filter_zip_eraseIdx "isPartial" A B r hA hB hrl

/-- Witness for C5 at concrete frames: empty upstream data, and a frame
with an `isPartial` column. -/
theorem c5_fetch_interest_over_time_witness :
    fetch_interest_over_time ⟨"date", [], ["python"], []⟩ = emptyFrame ∧
    (fetch_interest_over_time
        ⟨"date", ["d1", "d2"], ["python", "isPartial"],
         [["10", "False"], ["20", "True"]]⟩).cols = "date" :: (["python"] ++ []) ∧
    (fetch_interest_over_time
        ⟨"date", ["d1", "d2"], ["python", "isPartial"],
         [["10", "False"], ["20", "True"]]⟩).rows =
      ((⟨"date", ["d1", "d2"], ["python", "isPartial"],
         [["10", "False"], ["20", "True"]]⟩ : PDFrame).index.zip
        (⟨"date", ["d1", "d2"], ["python", "isPartial"],
         [["10", "False"], ["20", "True"]]⟩ : PDFrame).rows).map
        (fun p => p.1 :: p.2.eraseIdx (["python"] : List String).length) :=
  ⟨c5_fetch_interest_over_time.1 _ (by decide),
   (c5_fetch_interest_over_time.2.2
      ⟨"date", ["d1", "d2"], ["python", "isPartial"], [["10", "False"], ["20", "True"]]⟩
      ["python"] [] (by decide) rfl rfl (by decide) (by decide) (by decide)).1,
   (c5_fetch_interest_over_time.2.2
      ⟨"date", ["d1", "d2"], ["python", "isPartial"], [["10", "False"], ["20", "True"]]⟩
      ["python"] [] (by decide) rfl rfl (by decide) (by decide) (by decide)).2⟩

/-! ### Claims C2 and C6: CSV round trip and validity -/

/-- Splitting take/drop around the first failing element. -/
theorem takeWhile_dropWhile_append (p : Char → Bool) :
    ∀ (f : List Char) (d : Char) (rest : List Char),
      (∀ c ∈ f, p c = true) → p d = false →
      (f ++ d :: rest).takeWhile p = f ∧ (f ++ d :: rest).dropWhile p = d :: rest := by
  intro f
  induction f with
  | nil =>
    intro d rest hf hd
    simp [List.takeWhile_cons, List.dropWhile_cons, hd]
  | cons c f' ih =>
    intro d rest hf hd
    have hc : p c = true := hf c (by simp)
    have ih2 := ih d rest (fun c hc2 => hf c (by simp [hc2])) hd
    simp only [List.cons_append, List.takeWhile_cons, List.dropWhile_cons, hc, if_true]
    exact ⟨by rw [ih2.1], by rw [ih2.2]⟩

/-- Reading back an escaped quoted field body. -/
theorem parseQuoted_escQ (f rest : List Char) (h : rest.head? ≠ some '"') :
    parseQuoted (escQ f ++ '"' :: rest) = some (f, rest) := by
  induction f with
  | nil =>
    show parseQuoted ([] ++ '"' :: rest) = some ([], rest)
    rw [List.nil_append, parseQuoted.eq_def]
    cases rest with
    | nil => simp
    | cons d rest' =>
      have hd : ¬ d = '"' := by
        intro hdq
        exact h (by simp [hdq])
      simp [hd]
  | cons c f' ih =>
    by_cases hc : c = '"'
    · subst hc
      have hesc : escQ ('"' :: f') = '"' :: '"' :: escQ f' := by simp [escQ]
      rw [hesc, List.cons_append, List.cons_append, parseQuoted.eq_2]
      rw [if_pos rfl, ih]
      simp
    · have hesc : escQ (c :: f') = c :: escQ f' := by simp [escQ, hc]
      rw [hesc, List.cons_append, parseQuoted.eq_def]
      simp only [hc, if_false]
      rw [ih]
      simp

/-- Reading back one written field followed by a separator. -/
theorem parseField_write (f rest : List Char) (d : Char) (hd : d = ',' ∨ d = '\n') :
    parseField (writeField f ++ d :: rest) = some (f, d :: rest) := by
  have hdq : ¬ d = '"' := by rcases hd with h | h <;> simp [h]
  by_cases hq : needsQuote f = true
  · unfold writeField
    rw [if_pos hq]
    have hshape : ('"' :: (escQ f ++ ['"'])) ++ d :: rest =
        '"' :: (escQ f ++ '"' :: d :: rest) := by simp
    rw [hshape]
    unfold parseField
    rw [if_pos (by simp)]
    simp only [List.tail_cons]
    exact parseQuoted_escQ f (d :: rest) (by simp [hdq])
  · unfold writeField
    rw [if_neg hq]
    have hchars : ∀ c ∈ f, ¬(c = ',' ∨ c = '"' ∨ c = '\n' ∨ c = '\r') := by
      intro c hc
      simp only [needsQuote, List.any_eq_true, not_exists] at hq
      push_neg at hq
      have h2 := hq c hc
      simp at h2
      obtain ⟨⟨⟨h1a, h1b⟩, h1c⟩, h1d⟩ := h2
      rintro (h | h | h | h)
      · exact h1a h
      · exact h1b h
      · exact h1c h
      · exact h1d h
    have hhead : ¬((f ++ d :: rest).head? = some '"') := by
      cases f with
      | nil => simp [hdq]
      | cons c f' =>
        simp only [List.cons_append, List.head?_cons, Option.some_inj]
        intro hcq
        exact hchars c (by simp) (Or.inr (Or.inl hcq))
    unfold parseField
    rw [if_neg hhead]
    have hfp : ∀ c ∈ f, (!isFieldEnd c) = true := by
      intro c hc
      have h2 := hchars c hc
      push_neg at h2
      simp [isFieldEnd, h2.1, h2.2.2.1]
    have hdp : (!isFieldEnd d) = false := by
      rcases hd with h | h <;> simp [isFieldEnd, h]
    have ht := takeWhile_dropWhile_append _ f d rest hfp hdp
    rw [ht.1, ht.2]
/-- Reading back one written record and its newline terminator. -/
theorem parseRecordF_write :
    ∀ (fs : List (List Char)) (fuel : Nat) (rest : List Char), fs ≠ [] →
      fs.length ≤ fuel →
      parseRecordF fuel (writeRecord fs ++ '\n' :: rest) = some (fs, rest) := by
  intro fs
  induction fs with
  | nil => intro fuel rest h; exact absurd rfl h
  | cons f fs' ih =>
    intro fuel rest _ hfuel
    match fuel, hfuel with
    | fuel + 1, hfuel =>
      cases fs' with
      | nil =>
        show parseRecordF (fuel + 1) (writeField f ++ '\n' :: rest) = some ([f], rest)
        rw [parseRecordF.eq_2, parseField_write f rest '\n' (Or.inr rfl)]
        simp
      | cons f2 fs'' =>
        have hw : writeRecord (f :: f2 :: fs'') ++ '\n' :: rest =
            writeField f ++ ',' :: (writeRecord (f2 :: fs'') ++ '\n' :: rest) := by
          show (writeField f ++ ',' :: writeRecord (f2 :: fs'')) ++ '\n' :: rest = _
          simp
        rw [hw, parseRecordF.eq_2,
          parseField_write f (writeRecord (f2 :: fs'') ++ '\n' :: rest) ',' (Or.inl rfl)]
        have hrec := ih fuel rest (by simp) (by simp at hfuel ⊢; omega)
        simp [hrec]

/-- A record line is at most one shorter than its field count. -/
theorem writeRecord_length : ∀ fs : List (List Char), fs.length ≤ (writeRecord fs).length + 1 := by
  intro fs
  induction fs with
  | nil => simp [writeRecord]
  | cons f fs' ih =>
    cases fs' with
    | nil => simp [writeRecord]
    | cons f2 fs'' =>
      show (f :: f2 :: fs'').length ≤ (writeField f ++ ',' :: writeRecord (f2 :: fs'')).length + 1
      simp at ih ⊢
      omega

/-- Reading back one written record with the default fuel. -/
theorem parseRecord_write (fs : List (List Char)) (rest : List Char) (h : fs ≠ []) :
    parseRecord (writeRecord fs ++ '\n' :: rest) = some (fs, rest) := by
  unfold parseRecord
  apply parseRecordF_write fs _ rest h
  have h1 := writeRecord_length fs
  simp
  omega

/-- One line of serialized output. -/
theorem writeCsv_cons (r : List (List Char)) (t : List (List (List Char))) :
    writeCsv (r :: t) = writeRecord r ++ '\n' :: writeCsv t := by
  simp [writeCsv]

/-- The document is at least one character per record. -/
theorem writeCsv_length : ∀ t : List (List (List Char)), t.length ≤ (writeCsv t).length := by
  intro t
  induction t with
  | nil => simp [writeCsv]
  | cons r t' ih =>
    rw [writeCsv_cons]
    simp
    omega

/-- Unfolding the record reader on empty input. -/
theorem parseRecordsF_nil (fuel : Nat) : parseRecordsF fuel [] = some [] := by
  rw [parseRecordsF.eq_def]
  simp

/-- Unfolding the record reader on nonempty input with fuel available. -/
theorem parseRecordsF_succ (fuel : Nat) (l : List Char) (h : l.isEmpty = false) :
    parseRecordsF (fuel + 1) l =
      match parseRecord l with
      | none => none
      | some (r, rest) => (parseRecordsF fuel rest).map (fun rs => r :: rs) := by
  rw [parseRecordsF.eq_def]
  simp [h]

/-- Reading back a whole written table, given enough fuel. -/
theorem parseRecordsF_write :
    ∀ (t : List (List (List Char))) (fuel : Nat), (∀ r ∈ t, r ≠ []) → t.length ≤ fuel →
      parseRecordsF fuel (writeCsv t) = some t := by
  intro t
  induction t with
  | nil =>
    intro fuel _ _
    show parseRecordsF fuel [] = some []
    exact parseRecordsF_nil fuel
  | cons r t' ih =>
    intro fuel hne hfuel
    match fuel, hfuel with
    | fuel + 1, hfuel =>
      rw [writeCsv_cons]
      have hie : (writeRecord r ++ '\n' :: writeCsv t').isEmpty = false := by
        cases hwr : writeRecord r <;> simp [hwr]
      rw [parseRecordsF_succ fuel _ hie,
        parseRecord_write r (writeCsv t') (hne r (by simp))]
      have hrec := ih fuel (fun r' hr' => hne r' (by simp [hr'])) (by simp at hfuel; omega)
      simp [hrec]

/-- Reading back a whole written table. -/
theorem parseRecords_write (t : List (List (List Char))) (h : ∀ r ∈ t, r ≠ []) :
    parseRecords (writeCsv t) = some t := by
  unfold parseRecords
  exact parseRecordsF_write t _ h (writeCsv_length t)

/-- The frame-level round trip, shared by the serialization claims. -/
theorem df_to_csv_bytes_roundtrip (f : PDFrame) (hc : f.cols ≠ [])
    (hr : ∀ r ∈ f.rows, r ≠ []) :
    csvParse (df_to_csv_bytes f) = some (f.cols :: f.rows) := by
  unfold csvParse df_to_csv_bytes
  have hT : ∀ r ∈ (f.cols :: f.rows).map (fun r => r.map String.data), r ≠ [] := by
    intro r hrm
    simp only [List.mem_map, List.mem_cons] at hrm
    obtain ⟨r0, hr0, hmap⟩ := hrm
    have hr0ne : r0 ≠ [] := by
      rcases hr0 with h0 | h0
      · rw [h0]; exact hc
      · exact hr r0 h0
    rw [← hmap]
    simp [hr0ne]
  rw [parseRecords_write _ hT]
  have hback : ∀ r0 : List String, (r0.map String.data).map List.asString = r0 := by
    intro r0
    rw [List.map_map]
    have : (List.asString ∘ String.data) = id := funext (fun s => rfl)
    rw [this, List.map_id]
  rw [Option.map_some']
  rw [Option.some_inj]
  simp only [List.map_cons, List.map_map]
  have hcols := hback f.cols
  rw [List.map_map] at hcols
  rw [hcols]
  congr 1
  have : ∀ r0 ∈ f.rows, ((fun r => r.map List.asString) ∘ fun r => r.map String.data) r0 = id r0 := by
    intro r0 _
    simp only [Function.comp, id]
    exact hback r0
  rw [List.map_congr_left this, List.map_id]

/-- C2: serializing a result table with `df_to_csv_bytes` and parsing the
produced delimited text recovers exactly the same columns and rows, in the
same order. -/
theorem c2_serialize_roundtrip (f : PDFrame) (hc : f.cols ≠ [])
    (hr : ∀ r ∈ f.rows, r ≠ []) :
    csvParse (df_to_csv_bytes f) = some (f.cols :: f.rows) :=
  df_to_csv_bytes_roundtrip f hc hr

/-- Witness for C2 at a frame whose cells need quoting. -/
theorem c2_serialize_roundtrip_witness :
    csvParse (df_to_csv_bytes ⟨"", [], ["a", "b"], [["1", "2,3"], ["x\"y", "z"]]⟩) =
      some (["a", "b"] :: [["1", "2,3"], ["x\"y", "z"]]) :=
  c2_serialize_roundtrip ⟨"", [], ["a", "b"], [["1", "2,3"], ["x\"y", "z"]]⟩
    (by decide) (by decide)

/-- C6: `df_to_csv_bytes` is a total function on frames (its Lean type is
`PDFrame → List Char`, with no failure outcome); its output always begins
with the serialized header row followed by the data lines, and for every
frame with at least one column — including frames with zero rows — the
output is valid delimited text whose first record is the column list. -/
theorem c6_serialize_total (f : PDFrame) (hr : ∀ r ∈ f.rows, r ≠ []) :
    df_to_csv_bytes f =
      writeRecord (f.cols.map String.data) ++ '\n'
        :: writeCsv (f.rows.map (fun r => r.map String.data)) ∧
    (f.cols ≠ [] → ∃ t, csvParse (df_to_csv_bytes f) = some t ∧ t.head? = some f.cols) := by
  constructor
  · unfold df_to_csv_bytes
    simp only [List.map_cons]
    exact writeCsv_cons _ _
  · intro hc
    exact ⟨f.cols :: f.rows, df_to_csv_bytes_roundtrip f hc hr, rfl⟩

/-- Witness for C6 at a zero-row frame. -/
theorem c6_serialize_total_witness :
    df_to_csv_bytes ⟨"", [], ["a", "b"], []⟩ =
      writeRecord ((["a", "b"] : List String).map String.data) ++ '\n'
        :: writeCsv (([] : List (List String)).map (fun r => r.map String.data)) ∧
    ((["a", "b"] : List String) ≠ [] →
      ∃ t, csvParse (df_to_csv_bytes ⟨"", [], ["a", "b"], []⟩) = some t ∧
        t.head? = some ["a", "b"]) :=
  c6_serialize_total ⟨"", [], ["a", "b"], []⟩ (by decide)
